import Mathlib

/-!
# go-game: shared world state of the multiplayer server (main.go)

A shallow embedding of the world model of main.go and of the critical sections
that read and write it.

Modelling conventions.

* A Go map with string keys is a finite association list (GoMap): a read returns
  the first entry stored under the key, a write replaces whatever was stored
  under the key, a delete removes the key.  Go iterates maps in no particular
  order, so the order of the entries carries no meaning.
* float64 values are rationals.  Every float64 held by the program is finite (it
  is a constant, an integer conversion, or a decoded JSON number), and the only
  float operations the server performs are the comparison with 0 and the
  arithmetic of init.  The rounding of that arithmetic is a parameter of init.
* Go int values are integers; the server never does arithmetic on a score.
* A *websocket.Conn is an abstract handle, compared by identity (a natural number).
* Each block of code that runs between game.mu.Lock() and game.mu.Unlock() is
  one atomic step on the Game value.  The lock is released between a critical
  section of handleConnection and the broadcast that follows it, so runs
  interleave these steps freely.
-/

namespace GoGame

/-! ## Go maps -/

/-- Finite map with string keys, the model of a Go map. -/
structure GoMap (V : Type) where
  entries : List (String × V)
deriving DecidableEq

namespace GoMap

variable {V : Type}

/-- Result of make(map[string]V): the empty map. -/
def empty : GoMap V := ⟨[]⟩

/-- Lookup in a list of entries: the first value stored under the key. -/
def lookup : List (String × V) → String → Option V
  | [], _ => none
  | e :: es, k => if e.1 = k then some e.2 else lookup es k

/-- Read m[k] in the comma-ok form: none when the key is absent. -/
def get (m : GoMap V) (k : String) : Option V := lookup m.entries k

/-- Go builtin delete(m, k). -/
def delete (m : GoMap V) (k : String) : GoMap V :=
  ⟨m.entries.filter (fun e => decide (e.1 ≠ k))⟩

/-- Assignment m[k] = v: the key is bound to v, replacing any earlier binding. -/
def set (m : GoMap V) (k : String) (v : V) : GoMap V :=
  ⟨(k, v) :: (m.delete k).entries⟩

/-- Go builtin len(m). -/
def len (m : GoMap V) : Nat := m.entries.length

/-- Keys bound in the map. -/
def keys (m : GoMap V) : List String := m.entries.map Prod.fst

end GoMap

/-! ## Data model (main.go, lines 15-66) -/

def screenWidth : Nat := 800

def screenHeight : Nat := 600

/-- Player represents a player character. -/
structure Player where
  ID : String
  X : ℚ
  Y : ℚ
  VelocityY : ℚ
  IsJumping : Bool
  Score : Int
  Color : String
deriving DecidableEq

/-- Coin represents a collectible coin. -/
structure Coin where
  ID : String
  X : ℚ
  Y : ℚ
  Active : Bool
deriving DecidableEq

/-- Platform represents a static platform. -/
structure Platform where
  X : ℚ
  Y : ℚ
  Width : ℚ
  Height : ℚ
deriving DecidableEq

/-- Handle of a websocket connection, compared by identity. -/
abbrev Conn := Nat

/-- Game represents the state of the game (the mutex is implicit: every
operation below is one critical section). -/
structure Game where
  Players : GoMap Player
  Coins : GoMap Coin
  Platforms : List Platform
  Connections : GoMap Conn
deriving DecidableEq

/-- The ground platform literal used at lines 61 and 95. -/
def ground : Platform :=
  { X := 0, Y := ((screenHeight - 50 : Nat) : ℚ), Width := (screenWidth : ℚ), Height := 50 }

/-- The package-level variable game as declared at lines 57-66, before init runs. -/
def game : Game :=
  { Players := GoMap.empty
    Coins := GoMap.empty
    Platforms :=
      [ ground,
        { X := 300, Y := 400, Width := 200, Height := 20 },
        { X := 100, Y := 300, Width := 150, Height := 20 } ]
    Connections := GoMap.empty }

/-! ## init (lines 75-85) -/

/-- Value of fmt.Sprintf("coin%d", i). -/
def coinKey (i : Nat) : String := "coin" ++ toString i

/-- One iteration of the loop body of init.  The argument fl rounds the exact
result of a float64 operation, draw i is the value of the i-th call of
rand.Float64(). -/
def initStep (fl : ℚ → ℚ) (draw : Nat → ℚ) (g : Game) (i : Nat) : Game :=
  { g with
    Coins := g.Coins.set (coinKey i)
      { ID := coinKey i
        X := ((50 + i * 70 : Nat) : ℚ)
        Y := fl (fl (((screenHeight / 2 : Nat) : ℚ) + fl (draw i * 100)) - 50)
        Active := true } }

/-- The function init: the loop for i := 0; i < 10; i++. -/
def init (fl : ℚ → ℚ) (draw : Nat → ℚ) (g : Game) : Game :=
  (List.range 10).foldl (initStep fl draw) g

/-- The world once package initialisation has finished. -/
def initialWorld (fl : ℚ → ℚ) (draw : Nat → ℚ) : Game := init fl draw game

/-! ## broadcastGameState (lines 88-118) -/

/-- The test of line 94. -/
def allZero (p : Platform) : Bool :=
  decide (p.X = 0) && decide (p.Y = 0) && decide (p.Width = 0) && decide (p.Height = 0)

/-- Body of the loop of lines 93-97 at index i, acting on the slice in place. -/
def healStep (ps : List Platform) (i : Nat) : List Platform :=
  match ps.get? i with
  | some platform => if allZero platform then ps.set i ground else ps
  | none => ps

/-- The loop of lines 93-97 over all indices of the slice. -/
def healPlatforms (ps : List Platform) : List Platform :=
  (List.range ps.length).foldl healStep ps

/-- What lines 94-96 do to one entry of the slice; used to state what the loop
computes. -/
def healOne (p : Platform) : Platform := if allZero p then ground else p

/-- The anonymous struct passed to json.Marshal (lines 99-107 and 198-206). -/
structure Snapshot where
  Players : GoMap Player
  Coins : GoMap Coin
  Platforms : List Platform
deriving DecidableEq

/-- One run of the fan-out loop of lines 113-117: the encoded message and the
registry entries it is written to. -/
structure Broadcast where
  data : Snapshot
  recipients : List (String × Conn)
deriving DecidableEq

/-- The function broadcastGameState: heal the platforms in place, encode the
state, write it to every registered connection. -/
def broadcastGameState (g : Game) : Game × Broadcast :=
  let g1 : Game := { g with Platforms := healPlatforms g.Platforms }
  (g1,
    { data := { Players := g1.Players, Coins := g1.Coins, Platforms := g1.Platforms }
      recipients := g1.Connections.entries })

/-! ## handleGameState (lines 194-214) -/

/-- The function handleGameState: the state is left as it is, the encoded
snapshot is the response body. -/
def handleGameState (g : Game) : Game × Snapshot :=
  (g, { Players := g.Players, Coins := g.Coins, Platforms := g.Platforms })

/-! ## handleConnection (lines 121-191) -/

/-- The palette of randomColor. -/
def colors : List String := ["red", "blue", "green", "purple", "orange"]

/-- The function randomColor; r is the value of rand.Intn(len(colors)). -/
def randomColor (r : Fin colors.length) : String := colors.get r

/-- The critical section of lines 135-146: create the player, register the
connection. -/
def registerPlayer (g : Game) (playerID : String) (conn : Conn)
    (r : Fin colors.length) : Game :=
  { g with
    Players := g.Players.set playerID
      { ID := playerID
        X := 50
        Y := ((screenHeight - 70 : Nat) : ℚ)
        VelocityY := 0
        IsJumping := false
        Score := 0
        Color := randomColor r }
    Connections := g.Connections.set playerID conn }

/-- Entry of handleConnection up to the end of its first critical section,
lines 128-146: an empty identifier closes the connection and returns, otherwise
the player is registered.  The lock is released at line 146; the broadcast of
line 149 takes the lock again and is a later step of its own. -/
def connect (g : Game) (playerID : String) (conn : Conn)
    (r : Fin colors.length) : Game :=
  if playerID = "" then g else registerPlayer g playerID conn r

/-- The critical section of lines 174-187 for a decoded message playerUpdate. -/
def applyUpdate (g : Game) (playerID : String) (playerUpdate : Player) : Game :=
  match g.Players.get playerID with
  | some player =>
    let playerUpdate : Player :=
      if playerUpdate.X = 0 ∧ playerUpdate.Y = 0 then
        { playerUpdate with X := player.X, Y := player.Y }
      else playerUpdate
    { g with
      Players := g.Players.set playerID
        { player with
          X := playerUpdate.X
          Y := playerUpdate.Y
          VelocityY := playerUpdate.VelocityY
          IsJumping := playerUpdate.IsJumping
          Score := playerUpdate.Score } }
  | none => g

/-- One pass of the read loop, lines 168-189, for a message that was read, when
no other goroutine takes the lock between line 187 and the broadcast of line
189: a message that does not decode (none) is skipped, a decoded one is applied
and one broadcast follows. -/
def ingest (g : Game) (playerID : String) (msg : Option Player) : Game × List Broadcast :=
  match msg with
  | none => (g, [])
  | some playerUpdate =>
    let b := broadcastGameState (applyUpdate g playerID playerUpdate)
    (b.1, [b.2])

/-- The critical section of lines 152-155. -/
def removePlayer (g : Game) (playerID : String) : Game :=
  { g with
    Players := g.Players.delete playerID
    Connections := g.Connections.delete playerID }

/-- The deferred function of lines 151-159, when no other goroutine takes the
lock between line 155 and the broadcast of line 158: remove the player and the
registry entry, then broadcast once. -/
def disconnect (g : Game) (playerID : String) : Game × List Broadcast :=
  let b := broadcastGameState (removePlayer g playerID)
  (b.1, [b.2])

/-! ## Steps and runs -/

/-- The steps that take the lock, one for each critical section: the
registration of a handshake (lines 128-146), the update for a message read on
the connection of an identifier (lines 162-187, none when the message does not
decode), the removal of the deferred cleanup (lines 152-155), and a call of
broadcastGameState (lines 149, 158, 189 and the timer of line 231). -/
inductive Op where
  | register (playerID : String) (conn : Conn) (r : Fin colors.length)
  | message (playerID : String) (msg : Option Player)
  | remove (playerID : String)
  | broadcast
deriving DecidableEq

/-- Effect of one step: the new world and the broadcasts it emitted. -/
def step (g : Game) : Op → Game × List Broadcast
  | Op.register playerID conn r => (connect g playerID conn r, [])
  | Op.message playerID (some playerUpdate) => (applyUpdate g playerID playerUpdate, [])
  | Op.message _ none => (g, [])
  | Op.remove playerID => (removePlayer g playerID, [])
  | Op.broadcast => let b := broadcastGameState g; (b.1, [b.2])

/-- World reached after a finite sequence of steps, in any interleaving. -/
def run (g : Game) (ops : List Op) : Game :=
  ops.foldl (fun w op => (step w op).1) g

/-- Steps whose message, when there is one that decodes, carries a score that
is not negative. -/
def scoreNonneg : Op → Bool
  | Op.message _ (some playerUpdate) => decide (0 ≤ playerUpdate.Score)
  | _ => true

/-- The step is the removal of the cleanup for the identifier id. -/
def isRemoveOf (id : String) : Op → Bool
  | Op.remove playerID => decide (playerID = id)
  | _ => false

/-- The step is a registration under the identifier id. -/
def isRegisterOf (id : String) : Op → Bool
  | Op.register playerID _ _ => decide (playerID = id)
  | _ => false

/-- Expected score of the player under key k, followed along one step: 0 once
a handshake with that non-empty identifier registers, the score of the message
once an update is applied to a stored player, nothing once the cleanup removed
the key. -/
def scoreStep (k : String) (s : Option Int) : Op → Option Int
  | Op.register playerID _ _ =>
    if playerID = "" then s else if playerID = k then some 0 else s
  | Op.message playerID (some playerUpdate) =>
    if playerID = k then s.map (fun _ => playerUpdate.Score) else s
  | Op.message _ none => s
  | Op.remove playerID => if playerID = k then none else s
  | Op.broadcast => s

/-- Expected score under key k after a run from a world without players. -/
def expectedScore (ops : List Op) (k : String) : Option Int :=
  ops.foldl (scoreStep k) none

/-- A player with ID id and a registry entry are stored under the key id. -/
def hasPlayer (id : String) (g : Game) : Prop :=
  (∃ p, g.Players.get id = some p ∧ p.ID = id) ∧ ∃ c, g.Connections.get id = some c

/-- Neither a player nor a registry entry is stored under the key id. -/
def noPlayer (id : String) (g : Game) : Prop :=
  g.Players.get id = none ∧ g.Connections.get id = none

/-- No stored platform has all four fields 0. -/
def noZeroPlatform (g : Game) : Prop :=
  ∀ p ∈ g.Platforms, allZero p = false

/-- The registry and the player map bind the same keys. -/
def keysAgree (g : Game) : Prop :=
  ∀ k, k ∈ g.Connections.keys ↔ k ∈ g.Players.keys

/-- The player that lines 136-144 create for an identifier and a colour. -/
def spawn (playerID color : String) : Player :=
  { ID := playerID, X := 50, Y := 530, VelocityY := 0, IsJumping := false, Score := 0,
    Color := color }

/-- The coin that the loop body of init stores at index i. -/
def coinAt (fl : ℚ → ℚ) (draw : Nat → ℚ) (i : Nat) : Coin :=
  { ID := coinKey i
    X := ((50 + i * 70 : Nat) : ℚ)
    Y := fl (fl (((screenHeight / 2 : Nat) : ℚ) + fl (draw i * 100)) - 50)
    Active := true }

/-! ## Concrete worlds and runs -/

/-- The declared world after a client connected as p1 on handle 1 and the
broadcast of line 149 ran. -/
def p1World : Game := (broadcastGameState (connect game "p1" 1 ⟨0, by decide⟩)).1

/-- The update of the scenario: position (120, 480), score 5. -/
def moveUpdate : Player :=
  { ID := "", X := 120, Y := 480, VelocityY := 0, IsJumping := false, Score := 5, Color := "" }

/-- An update with the position (0, 0) and other fields set. -/
def zeroUpdate : Player :=
  { ID := "p1", X := 0, Y := 0, VelocityY := -3, IsJumping := true, Score := 9, Color := "" }

/-- The world after p1 sent moveUpdate. -/
def p1Moved : Game := (ingest p1World "p1" (some moveUpdate)).1

/-- Two connections registered under the identifier p1, the second (handle 2)
after the first (handle 1), each followed by its broadcast. -/
def sameIdWorld : Game :=
  (broadcastGameState (connect p1World "p1" 2 ⟨1, by decide⟩)).1

/-- Two clients, p1 on handle 1 and p2 on handle 2, connected to the declared
world. -/
def twoPlayerWorld : Game :=
  (broadcastGameState (connect p1World "p2" 2 ⟨3, by decide⟩)).1

/-- The second connection under p1 has registered, and the cleanup of the first
one takes the lock before the broadcast of line 149 of the second. -/
def racedWorld : Game :=
  removePlayer (connect p1World "p1" 2 ⟨1, by decide⟩) "p1"

/-- Steps of other goroutines between a registration and its broadcast: a timer
broadcast, a handshake of p2, a message of p2. -/
def otherSteps : List Op :=
  [ Op.broadcast, Op.register "p2" 2 ⟨3, by decide⟩, Op.message "p2" (some moveUpdate) ]

/-- A world whose platform slice holds one all-zero entry; no run reaches it. -/
def zeroPlatformWorld : Game :=
  { game with Platforms := [{ X := 0, Y := 0, Width := 0, Height := 0 }] }

/-- A client connects as p1 and sends an update whose score is -5. -/
def negativeScoreRun : List Op :=
  [ Op.register "p1" 1 ⟨0, by decide⟩, Op.broadcast,
    Op.message "p1" (some { ID := "p1", X := 120, Y := 480, VelocityY := 0,
                            IsJumping := false, Score := -5, Color := "" }),
    Op.broadcast ]

/-- A run with two clients: p1 connects, moves, and sends an update with
position (0, 0) and score 9; the timer fires; p2 connects, sends a message that
does not decode, and disconnects. -/
def scenarioRun : List Op :=
  [ Op.register "p1" 1 ⟨0, by decide⟩, Op.broadcast,
    Op.message "p1" (some moveUpdate), Op.broadcast,
    Op.message "p1" (some zeroUpdate), Op.broadcast, Op.broadcast,
    Op.register "p2" 2 ⟨3, by decide⟩, Op.broadcast,
    Op.message "p2" none, Op.remove "p2", Op.broadcast ]

/-! ## Lemmas on Go maps -/

namespace GoMap

variable {V : Type}

theorem lookup_filter_self (es : List (String × V)) (k : String) :
    lookup (es.filter (fun e => decide (e.1 ≠ k))) k = none := by
  induction es with
  | nil => rfl
  | cons e es ih =>
    rw [List.filter_cons]
    by_cases h : e.1 = k
    · rw [if_neg (by simpa using h)]
      exact ih
    · rw [if_pos (by simpa using h)]
      simp only [lookup, if_neg h]
      exact ih

theorem lookup_filter_of_ne (es : List (String × V)) {a k : String} (h : k ≠ a) :
    lookup (es.filter (fun e => decide (e.1 ≠ a))) k = lookup es k := by
  induction es with
  | nil => rfl
  | cons e es ih =>
    rw [List.filter_cons]
    by_cases h1 : e.1 = a
    · have h2 : e.1 ≠ k := fun h3 => h (h3.symm.trans h1)
      rw [if_neg (by simpa using h1)]
      simp only [lookup, if_neg h2]
      exact ih
    · rw [if_pos (by simpa using h1)]
      by_cases h2 : e.1 = k
      · simp only [lookup, if_pos h2]
      · simp only [lookup, if_neg h2]
        exact ih

theorem get_delete_self (m : GoMap V) (k : String) : (m.delete k).get k = none :=
  lookup_filter_self m.entries k

theorem get_delete_of_ne (m : GoMap V) {a k : String} (h : k ≠ a) :
    (m.delete a).get k = m.get k :=
  lookup_filter_of_ne m.entries h

theorem get_set_self (m : GoMap V) (k : String) (v : V) : (m.set k v).get k = some v := by
  simp [set, get, lookup]

theorem get_set_of_ne (m : GoMap V) {a k : String} (v : V) (h : k ≠ a) :
    (m.set a v).get k = m.get k := by
  have h1 : a ≠ k := fun h2 => h h2.symm
  simp only [set, get, lookup, h1, if_false]
  exact lookup_filter_of_ne m.entries h

theorem mem_keys_iff (m : GoMap V) (k : String) : k ∈ m.keys ↔ m.get k ≠ none := by
  obtain ⟨es⟩ := m
  simp only [keys, get]
  induction es with
  | nil => simp [lookup]
  | cons e es ih =>
    by_cases h : e.1 = k
    · simp [lookup, h]
    · have h1 : k ≠ e.1 := fun h2 => h h2.symm
      simp only [List.map_cons, List.mem_cons, lookup, h, h1, if_false, false_or]
      exact ih

theorem mem_keys_set (m : GoMap V) (a k : String) (v : V) :
    k ∈ (m.set a v).keys ↔ k = a ∨ k ∈ m.keys := by
  rw [mem_keys_iff, mem_keys_iff]
  by_cases h : k = a
  · subst h
    simp [get_set_self]
  · simp [get_set_of_ne m v h, h]

theorem mem_keys_delete (m : GoMap V) (a k : String) :
    k ∈ (m.delete a).keys ↔ k ≠ a ∧ k ∈ m.keys := by
  rw [mem_keys_iff, mem_keys_iff]
  by_cases h : k = a
  · subst h
    simp [get_delete_self]
  · simp [get_delete_of_ne m h, h]

end GoMap

/-! ## The platform loop of broadcastGameState -/

theorem healStep_getElem? (ps : List Platform) (n i : Nat) :
    (healStep ps n)[i]? = if i = n then ps[i]?.map healOne else ps[i]? := by
  unfold healStep
  by_cases h : i = n
  · subst h
    rw [if_pos rfl]
    cases hp : ps.get? i with
    | none =>
      have : ps[i]? = none := by simpa using hp
      simp [this]
    | some p =>
      have h1 : ps[i]? = some p := by simpa using hp
      have h2 : i < ps.length := by
        by_contra hc
        rw [List.getElem?_eq_none (by omega)] at h1
        cases h1
      by_cases hz : allZero p = true
      · simp [hz, h1, healOne, List.getElem?_set, h2]
      · simp [hz, h1, healOne]
  · rw [if_neg h]
    cases hp : ps.get? n with
    | none => rfl
    | some p =>
      by_cases hz : allZero p = true
      · have h3 : n ≠ i := fun h4 => h h4.symm
        simp [hz, List.getElem?_set, h3]
      · simp [hz]

theorem foldl_healStep_getElem? (ps : List Platform) (n i : Nat) :
    ((List.range n).foldl healStep ps)[i]? = if i < n then ps[i]?.map healOne else ps[i]? := by
  induction n with
  | zero => simp
  | succ n ih =>
    rw [List.range_succ, List.foldl_append, List.foldl_cons, List.foldl_nil, healStep_getElem?, ih]
    by_cases h : i = n
    · subst h
      simp
    · by_cases h1 : i < n
      · have h2 : i < n + 1 := by omega
        simp [h, h1, h2]
      · have h2 : ¬ i < n + 1 := by omega
        simp [h, h1, h2]

theorem healPlatforms_eq_map (ps : List Platform) : healPlatforms ps = ps.map healOne := by
  apply List.ext_getElem?
  intro i
  rw [healPlatforms, foldl_healStep_getElem?, List.getElem?_map]
  by_cases h : i < ps.length
  · rw [if_pos h]
  · rw [if_neg h, List.getElem?_eq_none (by omega)]
    rfl

/-! ## Lemmas on the operations -/

theorem ingest_players (g : Game) (playerID : String) (u : Player) :
    (ingest g playerID (some u)).1.Players = (applyUpdate g playerID u).Players := rfl

theorem applyUpdate_get_self (g : Game) (playerID : String) (player u : Player)
    (hp : g.Players.get playerID = some player) :
    (applyUpdate g playerID u).Players.get playerID =
      some { player with
        X := if u.X = 0 ∧ u.Y = 0 then player.X else u.X
        Y := if u.X = 0 ∧ u.Y = 0 then player.Y else u.Y
        VelocityY := u.VelocityY
        IsJumping := u.IsJumping
        Score := u.Score } := by
  unfold applyUpdate
  rw [hp]
  simp only [GoMap.get_set_self]
  by_cases h : u.X = 0 ∧ u.Y = 0
  · simp only [if_pos h]
  · simp only [if_neg h]

theorem allZero_iff (p : Platform) :
    allZero p = true ↔ p.X = 0 ∧ p.Y = 0 ∧ p.Width = 0 ∧ p.Height = 0 := by
  simp [allZero, and_assoc]

theorem ground_eq : ground = { X := 0, Y := 550, Width := 800, Height := 50 } := by
  simp [ground, screenHeight, screenWidth]

theorem healOne_not_allZero (p : Platform) : allZero (healOne p) = false := by
  unfold healOne
  by_cases h : allZero p = true
  · rw [if_pos h]
    decide
  · rw [if_neg h]
    simpa using h

theorem initialWorld_coins (fl : ℚ → ℚ) (draw : Nat → ℚ) :
    (initialWorld fl draw).Coins.entries =
      [9, 8, 7, 6, 5, 4, 3, 2, 1, 0].map (fun i => (coinKey i, coinAt fl draw i)) := by
  rfl

theorem coinKeys_eq : (List.range 10).map coinKey =
    ["coin0", "coin1", "coin2", "coin3", "coin4", "coin5", "coin6", "coin7", "coin8",
      "coin9"] := by
  decide

theorem coinY_bounds (fl : ℚ → ℚ) (hmono : Monotone fl)
    (hexact : ∀ n : Nat, n ≤ 400 → fl (n : ℚ) = (n : ℚ)) (r : ℚ) (h0 : 0 ≤ r) (h1 : r < 1) :
    250 ≤ fl (fl (300 + fl (r * 100)) - 50) ∧ fl (fl (300 + fl (r * 100)) - 50) ≤ 350 := by
  have e0 : fl 0 = 0 := by simpa using hexact 0 (by norm_num)
  have e100 : fl 100 = 100 := by simpa using hexact 100 (by norm_num)
  have e250 : fl 250 = 250 := by simpa using hexact 250 (by norm_num)
  have e300 : fl 300 = 300 := by simpa using hexact 300 (by norm_num)
  have e350 : fl 350 = 350 := by simpa using hexact 350 (by norm_num)
  have e400 : fl 400 = 400 := by simpa using hexact 400 (by norm_num)
  have a0 : 0 ≤ fl (r * 100) := by
    have := hmono (show (0 : ℚ) ≤ r * 100 by linarith)
    rwa [e0] at this
  have a1 : fl (r * 100) ≤ 100 := by
    have := hmono (show r * 100 ≤ (100 : ℚ) by linarith)
    rwa [e100] at this
  have b0 : 300 ≤ fl (300 + fl (r * 100)) := by
    have := hmono (show (300 : ℚ) ≤ 300 + fl (r * 100) by linarith)
    rwa [e300] at this
  have b1 : fl (300 + fl (r * 100)) ≤ 400 := by
    have := hmono (show 300 + fl (r * 100) ≤ (400 : ℚ) by linarith)
    rwa [e400] at this
  constructor
  · have := hmono (show (250 : ℚ) ≤ fl (300 + fl (r * 100)) - 50 by linarith)
    rwa [e250] at this
  · have := hmono (show fl (300 + fl (r * 100)) - 50 ≤ (350 : ℚ) by linarith)
    rwa [e350] at this

theorem initialWorld_get_coin (fl : ℚ → ℚ) (draw : Nat → ℚ) (i : Nat) (hi : i < 10) :
    (initialWorld fl draw).Coins.get (coinKey i) = some (coinAt fl draw i) := by
  interval_cases i <;> rfl

theorem initialWorld_coin_keys (fl : ℚ → ℚ) (draw : Nat → ℚ) (k : String) :
    k ∈ (initialWorld fl draw).Coins.keys ↔ ∃ i, i < 10 ∧ k = coinKey i := by
  have hk : (initialWorld fl draw).Coins.keys = [9, 8, 7, 6, 5, 4, 3, 2, 1, 0].map coinKey := by
    rw [GoMap.keys, initialWorld_coins, List.map_map]
    rfl
  rw [hk]
  constructor
  · intro h
    obtain ⟨i, hi, rfl⟩ := List.mem_map.1 h
    refine ⟨i, ?_, rfl⟩
    simp only [List.mem_cons, List.mem_singleton, List.not_mem_nil, or_false] at hi
    omega
  · rintro ⟨i, hi, rfl⟩
    apply List.mem_map.2
    refine ⟨i, ?_, rfl⟩
    simp only [List.mem_cons, List.mem_singleton, List.not_mem_nil, or_false]
    omega

theorem map_healOne_of_none_zero (ps : List Platform) (h : ∀ p ∈ ps, allZero p = false) :
    ps.map healOne = ps := by
  induction ps with
  | nil => rfl
  | cons p ps ih =>
    have hp : allZero p = false := h p (List.mem_cons_self _ _)
    rw [List.map_cons, ih (fun q hq => h q (List.mem_cons_of_mem _ hq))]
    simp [healOne, hp]

/-- In a world that stores no all-zero platform the response of handleGameState
is the snapshot that broadcastGameState emits. -/
theorem handleGameState_eq_broadcast_of_none_zero (g : Game)
    (h : ∀ p ∈ g.Platforms, allZero p = false) :
    (handleGameState g).2 = (broadcastGameState g).2.data := by
  have h1 : (broadcastGameState g).2.data.Platforms = g.Platforms := by
    rw [show (broadcastGameState g).2.data.Platforms = g.Platforms.map healOne from
      healPlatforms_eq_map _]
    exact map_healOne_of_none_zero _ h
  show ({ Players := g.Players, Coins := g.Coins, Platforms := g.Platforms } : Snapshot) =
    { Players := g.Players, Coins := g.Coins,
      Platforms := (broadcastGameState g).2.data.Platforms }
  rw [h1]

theorem applyUpdate_of_absent (g : Game) (playerID : String) (u : Player)
    (h : g.Players.get playerID = none) : applyUpdate g playerID u = g := by
  unfold applyUpdate
  rw [h]

theorem applyUpdate_get_of_ne (g : Game) (playerID k : String) (u : Player)
    (h : k ≠ playerID) : (applyUpdate g playerID u).Players.get k = g.Players.get k := by
  unfold applyUpdate
  cases hp : g.Players.get playerID with
  | none => rfl
  | some player => exact GoMap.get_set_of_ne _ _ h

theorem applyUpdate_rest (g : Game) (playerID : String) (u : Player) :
    (applyUpdate g playerID u).Coins = g.Coins ∧
      (applyUpdate g playerID u).Platforms = g.Platforms ∧
      (applyUpdate g playerID u).Connections = g.Connections := by
  unfold applyUpdate
  cases hp : g.Players.get playerID with
  | none => exact ⟨rfl, rfl, rfl⟩
  | some player => exact ⟨rfl, rfl, rfl⟩

theorem removePlayer_gets (g : Game) (playerID : String) :
    (removePlayer g playerID).Players.get playerID = none ∧
      (removePlayer g playerID).Connections.get playerID = none ∧
      ∀ k, k ≠ playerID →
        (removePlayer g playerID).Players.get k = g.Players.get k ∧
        (removePlayer g playerID).Connections.get k = g.Connections.get k :=
  ⟨GoMap.get_delete_self _ _, GoMap.get_delete_self _ _,
    fun _ hk => ⟨GoMap.get_delete_of_ne _ hk, GoMap.get_delete_of_ne _ hk⟩⟩

theorem registerPlayer_get_self (g : Game) (playerID : String) (conn : Conn)
    (r : Fin colors.length) :
    (registerPlayer g playerID conn r).Players.get playerID =
        some (spawn playerID (randomColor r)) ∧
      (registerPlayer g playerID conn r).Connections.get playerID = some conn := by
  constructor
  · unfold registerPlayer
    simp only [GoMap.get_set_self]
    simp [spawn, screenHeight]
  · exact GoMap.get_set_self _ _ _

theorem registerPlayer_get_of_ne (g : Game) (playerID k : String) (conn : Conn)
    (r : Fin colors.length) (h : k ≠ playerID) :
    (registerPlayer g playerID conn r).Players.get k = g.Players.get k ∧
      (registerPlayer g playerID conn r).Connections.get k = g.Connections.get k :=
  ⟨GoMap.get_set_of_ne _ _ h, GoMap.get_set_of_ne _ _ h⟩

theorem randomColor_mem (r : Fin colors.length) : randomColor r ∈ colors :=
  List.get_mem _ _ _

theorem initStep_players (fl : ℚ → ℚ) (draw : Nat → ℚ) (is : List Nat) (g : Game) :
    (is.foldl (initStep fl draw) g).Players = g.Players ∧
      (is.foldl (initStep fl draw) g).Connections = g.Connections ∧
      (is.foldl (initStep fl draw) g).Platforms = g.Platforms := by
  induction is generalizing g with
  | nil => exact ⟨rfl, rfl, rfl⟩
  | cons i is ih =>
    rw [List.foldl_cons]
    exact ih (initStep fl draw g i)

theorem initialWorld_players (fl : ℚ → ℚ) (draw : Nat → ℚ) :
    (initialWorld fl draw).Players = GoMap.empty ∧
      (initialWorld fl draw).Connections = GoMap.empty :=
  ⟨(initStep_players fl draw _ game).1, (initStep_players fl draw _ game).2.1⟩

theorem applyUpdate_mem_keys (g : Game) (playerID : String) (u : Player) (k : String) :
    k ∈ (applyUpdate g playerID u).Players.keys ↔ k ∈ g.Players.keys := by
  rw [GoMap.mem_keys_iff, GoMap.mem_keys_iff]
  by_cases hk : k = playerID
  · subst hk
    cases hp : g.Players.get k with
    | none => rw [applyUpdate_of_absent g k u hp, hp]
    | some player => simp [applyUpdate_get_self g k player u hp]
  · rw [applyUpdate_get_of_ne g playerID k u hk]

theorem connect_of_ne (g : Game) (playerID : String) (conn : Conn) (r : Fin colors.length)
    (h : playerID ≠ "") : connect g playerID conn r = registerPlayer g playerID conn r := by
  unfold connect
  rw [if_neg h]

theorem connect_of_empty (g : Game) (playerID : String) (conn : Conn)
    (r : Fin colors.length) (h : playerID = "") : connect g playerID conn r = g := by
  unfold connect
  rw [if_pos h]

theorem GoMap.mem_keys_of_mem_entries {V : Type} (m : GoMap V) (k : String) (v : V)
    (h : (k, v) ∈ m.entries) : k ∈ m.keys :=
  List.mem_map.2 ⟨(k, v), h, rfl⟩

theorem GoMap.not_mem_entries_of_get_none {V : Type} (m : GoMap V) (k : String)
    (h : m.get k = none) (v : V) : (k, v) ∉ m.entries := by
  intro hv
  exact (GoMap.mem_keys_iff m k).1 (GoMap.mem_keys_of_mem_entries m k v hv) h

theorem GoMap.exists_mem_entries_of_get {V : Type} (m : GoMap V) (k : String) (v : V)
    (h : m.get k = some v) : ∃ c, (k, c) ∈ m.entries := by
  have hk : k ∈ m.keys := (GoMap.mem_keys_iff m k).2 (by rw [h]; exact Option.some_ne_none v)
  obtain ⟨e, he, hek⟩ := List.mem_map.1 hk
  refine ⟨e.2, ?_⟩
  rw [← hek]
  exact he

theorem GoMap.mem_entries_delete {V : Type} (m : GoMap V) (a k : String) (v : V) :
    (k, v) ∈ (m.delete a).entries ↔ k ≠ a ∧ (k, v) ∈ m.entries := by
  unfold GoMap.delete
  rw [List.mem_filter]
  constructor
  · rintro ⟨h1, h2⟩
    exact ⟨by simpa using h2, h1⟩
  · rintro ⟨h1, h2⟩
    exact ⟨h2, by simpa using h1⟩

/-! ## Invariants of runs -/

theorem step_keysAgree (g : Game) (op : Op) (h : keysAgree g) : keysAgree (step g op).1 := by
  intro k
  cases op with
  | register playerID conn r =>
    by_cases hid : playerID = ""
    · show k ∈ (connect g playerID conn r).Connections.keys ↔
        k ∈ (connect g playerID conn r).Players.keys
      rw [connect_of_empty g playerID conn r hid]
      exact h k
    · show k ∈ (connect g playerID conn r).Connections.keys ↔
        k ∈ (connect g playerID conn r).Players.keys
      rw [connect_of_ne g playerID conn r hid]
      show k ∈ (g.Connections.set playerID conn).keys ↔ k ∈ (g.Players.set playerID _).keys
      rw [GoMap.mem_keys_set, GoMap.mem_keys_set, h k]
  | message playerID msg =>
    cases msg with
    | none => exact h k
    | some u =>
      show k ∈ (applyUpdate g playerID u).Connections.keys ↔
        k ∈ (applyUpdate g playerID u).Players.keys
      rw [(applyUpdate_rest g playerID u).2.2, applyUpdate_mem_keys]
      exact h k
  | remove playerID =>
    show k ∈ (g.Connections.delete playerID).keys ↔ k ∈ (g.Players.delete playerID).keys
    rw [GoMap.mem_keys_delete, GoMap.mem_keys_delete, h k]
  | broadcast => exact h k

theorem run_keysAgree (ops : List Op) (g : Game) (h : keysAgree g) : keysAgree (run g ops) := by
  induction ops generalizing g with
  | nil => exact h
  | cons op ops ih => exact ih _ (step_keysAgree g op h)

theorem step_score (k : String) (g : Game) (op : Op) :
    ((step g op).1.Players.get k).map Player.Score =
      scoreStep k ((g.Players.get k).map Player.Score) op := by
  cases op with
  | register playerID conn r =>
    show ((connect g playerID conn r).Players.get k).map Player.Score = _
    by_cases hid : playerID = ""
    · rw [connect_of_empty g playerID conn r hid]
      simp only [scoreStep, if_pos hid]
    · rw [connect_of_ne g playerID conn r hid]
      simp only [scoreStep, if_neg hid]
      by_cases hk : playerID = k
      · subst hk
        rw [(registerPlayer_get_self g playerID conn r).1, if_pos rfl]
        rfl
      · rw [(registerPlayer_get_of_ne g playerID k conn r (fun hc => hk hc.symm)).1, if_neg hk]
  | message playerID msg =>
    cases msg with
    | none => rfl
    | some u =>
      show ((applyUpdate g playerID u).Players.get k).map Player.Score = _
      simp only [scoreStep]
      by_cases hk : playerID = k
      · subst hk
        rw [if_pos rfl]
        cases hp : g.Players.get playerID with
        | none => rw [applyUpdate_of_absent g playerID u hp, hp]; rfl
        | some player => rw [applyUpdate_get_self g playerID player u hp]; rfl
      · rw [applyUpdate_get_of_ne g playerID k u (fun hc => hk hc.symm), if_neg hk]
  | remove playerID =>
    show ((removePlayer g playerID).Players.get k).map Player.Score = _
    simp only [scoreStep]
    by_cases hk : playerID = k
    · subst hk
      rw [(removePlayer_gets g playerID).1, if_pos rfl]
      rfl
    · rw [((removePlayer_gets g playerID).2.2 k (fun hc => hk hc.symm)).1, if_neg hk]
  | broadcast => rfl

theorem run_score (k : String) (ops : List Op) (g : Game) :
    ((run g ops).Players.get k).map Player.Score =
      ops.foldl (scoreStep k) ((g.Players.get k).map Player.Score) := by
  induction ops generalizing g with
  | nil => rfl
  | cons op ops ih =>
    show ((run (step g op).1 ops).Players.get k).map Player.Score = _
    rw [ih, step_score, List.foldl_cons]

theorem scoreStep_nonneg (k : String) (s : Option Int) (op : Op)
    (hop : scoreNonneg op = true) (hs : ∀ n, s = some n → 0 ≤ n) :
    ∀ n, scoreStep k s op = some n → 0 ≤ n := by
  intro n hn
  cases op with
  | register playerID conn r =>
    simp only [scoreStep] at hn
    by_cases hid : playerID = ""
    · rw [if_pos hid] at hn
      exact hs n hn
    · rw [if_neg hid] at hn
      by_cases hk : playerID = k
      · rw [if_pos hk] at hn
        cases hn
        exact le_refl _
      · rw [if_neg hk] at hn
        exact hs n hn
  | message playerID msg =>
    cases msg with
    | none => exact hs n hn
    | some u =>
      have hu : 0 ≤ u.Score := by simpa [scoreNonneg] using hop
      simp only [scoreStep] at hn
      by_cases hk : playerID = k
      · rw [if_pos hk] at hn
        cases s with
        | none => cases hn
        | some m =>
          cases hn
          exact hu
      · rw [if_neg hk] at hn
        exact hs n hn
  | remove playerID =>
    simp only [scoreStep] at hn
    by_cases hk : playerID = k
    · rw [if_pos hk] at hn
      cases hn
    · rw [if_neg hk] at hn
      exact hs n hn
  | broadcast => exact hs n hn

theorem foldl_scoreStep_nonneg (k : String) (ops : List Op) (s : Option Int)
    (hops : ∀ op ∈ ops, scoreNonneg op = true) (hs : ∀ n, s = some n → 0 ≤ n) :
    ∀ n, ops.foldl (scoreStep k) s = some n → 0 ≤ n := by
  induction ops generalizing s with
  | nil => exact hs
  | cons op ops ih =>
    rw [List.foldl_cons]
    exact ih _ (fun o ho => hops o (List.mem_cons_of_mem _ ho))
      (scoreStep_nonneg k s op (hops op (List.mem_cons_self _ _)) hs)

theorem step_hasPlayer (id : String) (g : Game) (op : Op) (hop : isRemoveOf id op = false)
    (h : hasPlayer id g) : hasPlayer id (step g op).1 := by
  obtain ⟨⟨p, hp, hpid⟩, c, hc⟩ := h
  cases op with
  | register playerID conn r =>
    show hasPlayer id (connect g playerID conn r)
    by_cases hid : playerID = ""
    · rw [connect_of_empty g playerID conn r hid]
      exact ⟨⟨p, hp, hpid⟩, c, hc⟩
    · rw [connect_of_ne g playerID conn r hid]
      by_cases hk : id = playerID
      · subst hk
        exact ⟨⟨_, (registerPlayer_get_self g id conn r).1, rfl⟩,
          conn, (registerPlayer_get_self g id conn r).2⟩
      · have hne := registerPlayer_get_of_ne g playerID id conn r hk
        exact ⟨⟨p, hne.1.trans hp, hpid⟩, c, hne.2.trans hc⟩
  | message playerID msg =>
    cases msg with
    | none => exact ⟨⟨p, hp, hpid⟩, c, hc⟩
    | some u =>
      show hasPlayer id (applyUpdate g playerID u)
      refine ⟨?_, c, ?_⟩
      · by_cases hk : id = playerID
        · subst hk
          exact ⟨_, applyUpdate_get_self g id p u hp, hpid⟩
        · exact ⟨p, (applyUpdate_get_of_ne g playerID id u hk).trans hp, hpid⟩
      · rw [(applyUpdate_rest g playerID u).2.2]
        exact hc
  | remove playerID =>
    have hk : id ≠ playerID := by
      intro hc2
      subst hc2
      simp [isRemoveOf] at hop
    have hne := (removePlayer_gets g playerID).2.2 id hk
    exact ⟨⟨p, hne.1.trans hp, hpid⟩, c, hne.2.trans hc⟩
  | broadcast => exact ⟨⟨p, hp, hpid⟩, c, hc⟩

theorem run_hasPlayer (id : String) (ops : List Op) (g : Game)
    (hops : ∀ op ∈ ops, isRemoveOf id op = false) (h : hasPlayer id g) :
    hasPlayer id (run g ops) := by
  induction ops generalizing g with
  | nil => exact h
  | cons op ops ih =>
    exact ih _ (fun o ho => hops o (List.mem_cons_of_mem _ ho))
      (step_hasPlayer id g op (hops op (List.mem_cons_self _ _)) h)

theorem step_noPlayer (id : String) (g : Game) (op : Op) (hop : isRegisterOf id op = false)
    (h : noPlayer id g) : noPlayer id (step g op).1 := by
  obtain ⟨hp, hc⟩ := h
  cases op with
  | register playerID conn r =>
    show noPlayer id (connect g playerID conn r)
    have hk : id ≠ playerID := by
      intro hc2
      subst hc2
      simp [isRegisterOf] at hop
    by_cases hid : playerID = ""
    · rw [connect_of_empty g playerID conn r hid]
      exact ⟨hp, hc⟩
    · rw [connect_of_ne g playerID conn r hid]
      have hne := registerPlayer_get_of_ne g playerID id conn r hk
      exact ⟨hne.1.trans hp, hne.2.trans hc⟩
  | message playerID msg =>
    cases msg with
    | none => exact ⟨hp, hc⟩
    | some u =>
      show noPlayer id (applyUpdate g playerID u)
      refine ⟨?_, ?_⟩
      · by_cases hk : id = playerID
        · subst hk
          rw [applyUpdate_of_absent g id u hp]
          exact hp
        · exact (applyUpdate_get_of_ne g playerID id u hk).trans hp
      · rw [(applyUpdate_rest g playerID u).2.2]
        exact hc
  | remove playerID =>
    show noPlayer id (removePlayer g playerID)
    by_cases hk : id = playerID
    · subst hk
      exact ⟨(removePlayer_gets g id).1, (removePlayer_gets g id).2.1⟩
    · have hne := (removePlayer_gets g playerID).2.2 id hk
      exact ⟨hne.1.trans hp, hne.2.trans hc⟩
  | broadcast => exact ⟨hp, hc⟩

theorem run_noPlayer (id : String) (ops : List Op) (g : Game)
    (hops : ∀ op ∈ ops, isRegisterOf id op = false) (h : noPlayer id g) :
    noPlayer id (run g ops) := by
  induction ops generalizing g with
  | nil => exact h
  | cons op ops ih =>
    exact ih _ (fun o ho => hops o (List.mem_cons_of_mem _ ho))
      (step_noPlayer id g op (hops op (List.mem_cons_self _ _)) h)

theorem step_noZeroPlatform (g : Game) (op : Op) (h : noZeroPlatform g) :
    noZeroPlatform (step g op).1 := by
  cases op with
  | register playerID conn r =>
    show noZeroPlatform (connect g playerID conn r)
    by_cases hid : playerID = ""
    · rw [connect_of_empty g playerID conn r hid]
      exact h
    · rw [connect_of_ne g playerID conn r hid]
      exact h
  | message playerID msg =>
    cases msg with
    | none => exact h
    | some u =>
      intro p hp
      have hp2 : p ∈ (applyUpdate g playerID u).Platforms := hp
      rw [(applyUpdate_rest g playerID u).2.1] at hp2
      exact h p hp2
  | remove playerID => exact h
  | broadcast =>
    intro p hp
    have hp2 : p ∈ healPlatforms g.Platforms := hp
    rw [healPlatforms_eq_map, List.mem_map] at hp2
    obtain ⟨q, _, rfl⟩ := hp2
    exact healOne_not_allZero q

theorem run_noZeroPlatform (ops : List Op) (g : Game) (h : noZeroPlatform g) :
    noZeroPlatform (run g ops) := by
  induction ops generalizing g with
  | nil => exact h
  | cons op ops ih => exact ih _ (step_noZeroPlatform g op h)

theorem initialWorld_noZeroPlatform (fl : ℚ → ℚ) (draw : Nat → ℚ) :
    noZeroPlatform (initialWorld fl draw) := by
  have hgame : ∀ p ∈ game.Platforms, allZero p = false := by decide
  intro p hp
  have hp2 : p ∈ (initialWorld fl draw).Platforms := hp
  rw [show (initialWorld fl draw).Platforms = game.Platforms from
    (initStep_players fl draw _ game).2.2] at hp2
  exact hgame p hp2

/-- Outside the reachable worlds: at a world whose platform slice holds an
all-zero entry handleGameState returns the entry as stored and
broadcastGameState emits the ground rectangle in its place. -/
theorem handleGameState_at_zeroPlatformWorld :
    (handleGameState zeroPlatformWorld).2.Platforms =
        [{ X := 0, Y := 0, Width := 0, Height := 0 }] ∧
      (broadcastGameState zeroPlatformWorld).2.data.Platforms =
        [{ X := 0, Y := 550, Width := 800, Height := 50 }] := by
  decide

/-- No run from the initial world reaches zeroPlatformWorld: Platforms is
written only by the declaration and by the ground of line 95. -/
theorem zeroPlatformWorld_unreachable (fl : ℚ → ℚ) (draw : Nat → ℚ) (ops : List Op) :
    run (initialWorld fl draw) ops ≠ zeroPlatformWorld := by
  intro h
  have hno : noZeroPlatform (run (initialWorld fl draw) ops) :=
    run_noZeroPlatform ops _ (initialWorld_noZeroPlatform fl draw)
  rw [h] at hno
  have hz := hno { X := 0, Y := 0, Width := 0, Height := 0 } (List.mem_cons_self _ _)
  revert hz
  decide

/-! ## The claims -/

/-- C1: from the initial world, after every finite sequence of registrations,
updates, removals and broadcasts, in any interleaving (in particular after every
sequence of connects and disconnects), the keys of Connections are the keys of
Players. -/
theorem registry_keys_eq_player_keys (fl : ℚ → ℚ) (draw : Nat → ℚ) (ops : List Op)
    (k : String) :
    k ∈ (run (initialWorld fl draw) ops).Connections.keys ↔
      k ∈ (run (initialWorld fl draw) ops).Players.keys := by
  apply run_keysAgree
  intro j
  rw [(initialWorld_players fl draw).1, (initialWorld_players fl draw).2]
  exact Iff.rfl

/-- C2: when a player is stored under the identifier of the connection, a
decoded update whose x and y are both 0 leaves the stored X and Y as they
were. -/
theorem zero_position_keeps_position (g : Game) (playerID : String)
    (player playerUpdate : Player) (hp : g.Players.get playerID = some player)
    (hx : playerUpdate.X = 0) (hy : playerUpdate.Y = 0) :
    ∃ p, (ingest g playerID (some playerUpdate)).1.Players.get playerID = some p ∧
      p.X = player.X ∧ p.Y = player.Y := by
  rw [ingest_players, applyUpdate_get_self g playerID player playerUpdate hp]
  exact ⟨_, rfl, by simp [hx, hy], by simp [hx, hy]⟩

theorem zero_position_keeps_position_witness :
    p1Moved.Players.get "p1" =
        some { ID := "p1", X := 120, Y := 480, VelocityY := 0, IsJumping := false,
               Score := 5, Color := "red" } ∧
      zeroUpdate.X = 0 ∧ zeroUpdate.Y = 0 ∧
      ∃ p, (ingest p1Moved "p1" (some zeroUpdate)).1.Players.get "p1" = some p ∧
        p.X = 120 ∧ p.Y = 480 :=
  ⟨by decide, by decide, by decide,
    zero_position_keeps_position p1Moved "p1"
      { ID := "p1", X := 120, Y := 480, VelocityY := 0, IsJumping := false,
        Score := 5, Color := "red" } zeroUpdate (by decide) (by decide) (by decide)⟩

/-- C3: when a player is stored under the identifier of the connection, a
decoded update whose position is not (0, 0) overwrites X, Y, VelocityY,
IsJumping and Score with exactly the values of the update. -/
theorem nonzero_position_overwrites (g : Game) (playerID : String)
    (player playerUpdate : Player) (hp : g.Players.get playerID = some player)
    (hpos : ¬ (playerUpdate.X = 0 ∧ playerUpdate.Y = 0)) :
    ∃ p, (ingest g playerID (some playerUpdate)).1.Players.get playerID = some p ∧
      p.X = playerUpdate.X ∧ p.Y = playerUpdate.Y ∧
      p.VelocityY = playerUpdate.VelocityY ∧ p.IsJumping = playerUpdate.IsJumping ∧
      p.Score = playerUpdate.Score := by
  rw [ingest_players, applyUpdate_get_self g playerID player playerUpdate hp]
  exact ⟨_, rfl, by simp [hpos], by simp [hpos], rfl, rfl, rfl⟩

theorem nonzero_position_overwrites_witness :
    p1World.Players.get "p1" =
        some { ID := "p1", X := 50, Y := 530, VelocityY := 0, IsJumping := false,
               Score := 0, Color := "red" } ∧
      ¬ (moveUpdate.X = 0 ∧ moveUpdate.Y = 0) ∧
      ∃ p, (ingest p1World "p1" (some moveUpdate)).1.Players.get "p1" = some p ∧
        p.X = moveUpdate.X ∧ p.Y = moveUpdate.Y ∧
        p.VelocityY = moveUpdate.VelocityY ∧ p.IsJumping = moveUpdate.IsJumping ∧
        p.Score = moveUpdate.Score :=
  ⟨by decide, by decide,
    nonzero_position_overwrites p1World "p1"
      { ID := "p1", X := 50, Y := 530, VelocityY := 0, IsJumping := false,
        Score := 0, Color := "red" } moveUpdate (by decide) (by decide)⟩

/-- C4: the platform list emitted by broadcastGameState has the length and
order of the stored list, every stored all-zero entry is replaced by the ground
rectangle (0, 550, 800, 50), every other entry is emitted as stored, the stored
slice is left equal to the emitted list, and no emitted rectangle has X, Y,
Width and Height all 0. -/
theorem broadcast_platforms_healed (g : Game) :
    (broadcastGameState g).2.data.Platforms =
        g.Platforms.map (fun p =>
          if p.X = 0 ∧ p.Y = 0 ∧ p.Width = 0 ∧ p.Height = 0 then
            ({ X := 0, Y := 550, Width := 800, Height := 50 } : Platform)
          else p) ∧
      (broadcastGameState g).2.data.Platforms.length = g.Platforms.length ∧
      (broadcastGameState g).1.Platforms = (broadcastGameState g).2.data.Platforms ∧
      ∀ p ∈ (broadcastGameState g).2.data.Platforms,
        ¬ (p.X = 0 ∧ p.Y = 0 ∧ p.Width = 0 ∧ p.Height = 0) := by
  have h : (broadcastGameState g).2.data.Platforms = g.Platforms.map healOne :=
    healPlatforms_eq_map _
  refine ⟨?_, ?_, rfl, ?_⟩
  · rw [h]
    apply List.map_congr_left
    intro p _
    unfold healOne
    by_cases hz : allZero p = true
    · rw [if_pos hz, if_pos ((allZero_iff p).1 hz), ground_eq]
    · rw [if_neg hz, if_neg (fun hc => hz ((allZero_iff p).2 hc))]
  · rw [h, List.length_map]
  · intro p hp hc
    rw [h, List.mem_map] at hp
    obtain ⟨q, _, rfl⟩ := hp
    have h1 := healOne_not_allZero q
    rw [(allZero_iff _).2 hc] at h1
    cases h1

/-- C5 fails as stated: with two live connections registered under p1 (handle 1,
then handle 2), the registry entry under p1 is handle 2 and the stored player is
the one created for the second connection; the cleanup run for the first
connection removes both, although they belong to the other client. -/
theorem disconnect_removes_newer_connection :
    sameIdWorld.Connections.get "p1" = some 2 ∧
      sameIdWorld.Players.get "p1" =
        some { ID := "p1", X := 50, Y := 530, VelocityY := 0, IsJumping := false,
               Score := 0, Color := "blue" } ∧
      (disconnect sameIdWorld "p1").1.Connections.get "p1" = none ∧
      (disconnect sameIdWorld "p1").1.Players.get "p1" = none := by
  decide

/-- C5, as amended: when the registry entry stored under id, if there is one,
is the handle of the disconnecting client itself (no other live connection has
registered under the same identifier since), the deferred cleanup run for that
client removes exactly its own player and registry entry: Players and
Connections lose the key id and nothing else, the registry entry of every other
client is as before, Coins and Platforms are untouched by the removal, and
exactly one broadcast is triggered, after the removal: it is emitted from the
world the removal left, holds no player under id and every other player as
stored, and is written to the registered connections other than id.  When other
steps run between the removal and the broadcast, none of them a registration
under id, the broadcast still holds no player under id and is written to no
connection under id. -/
theorem disconnect_removes_own (g : Game) (id : String) (conn : Conn)
    (hown : ∀ c, g.Connections.get id = some c → c = conn) :
    (disconnect g id).1.Players.get id = none ∧
      (disconnect g id).1.Connections.get id = none ∧
      (∀ k, k ≠ id →
        (disconnect g id).1.Players.get k = g.Players.get k ∧
        (disconnect g id).1.Connections.get k = g.Connections.get k) ∧
      (∀ k c, g.Connections.get k = some c → c ≠ conn →
        (disconnect g id).1.Connections.get k = some c) ∧
      (removePlayer g id).Coins = g.Coins ∧
      (removePlayer g id).Platforms = g.Platforms ∧
      (disconnect g id).1.Coins = g.Coins ∧
      (disconnect g id).2.length = 1 ∧
      (disconnect g id).2 = [(broadcastGameState (removePlayer g id)).2] ∧
      (∃ b, (disconnect g id).2 = [b] ∧ b.data.Players.get id = none ∧
        (∀ k, k ≠ id → b.data.Players.get k = g.Players.get k) ∧
        (∀ c, (id, c) ∉ b.recipients) ∧
        (∀ k c, k ≠ id → ((k, c) ∈ b.recipients ↔ (k, c) ∈ g.Connections.entries))) ∧
      (∀ mid : List Op, (∀ op ∈ mid, isRegisterOf id op = false) →
        (broadcastGameState (run (removePlayer g id) mid)).2.data.Players.get id = none ∧
        ∀ c, (id, c) ∉ (broadcastGameState (run (removePlayer g id) mid)).2.recipients) := by
  have hrem := removePlayer_gets g id
  refine ⟨hrem.1, hrem.2.1, hrem.2.2, ?_, rfl, rfl, rfl, rfl, rfl, ?_, ?_⟩
  · intro k c hk hc
    have hne : k ≠ id := by
      intro hkid
      subst hkid
      exact hc (hown c hk)
    exact ((hrem.2.2 k hne).2).trans hk
  · refine ⟨_, rfl, hrem.1, fun k hk => (hrem.2.2 k hk).1, ?_, ?_⟩
    · intro c hc
      exact ((GoMap.mem_entries_delete g.Connections id id c).1 hc).1 rfl
    · intro k c hk
      constructor
      · intro hc
        exact ((GoMap.mem_entries_delete g.Connections id k c).1 hc).2
      · intro hc
        exact (GoMap.mem_entries_delete g.Connections id k c).2 ⟨hk, hc⟩
  · intro mid hmid
    have hno : noPlayer id (run (removePlayer g id) mid) :=
      run_noPlayer id mid _ hmid ⟨hrem.1, hrem.2.1⟩
    exact ⟨hno.1, GoMap.not_mem_entries_of_get_none _ id hno.2⟩

theorem disconnect_removes_own_witness :
    (∀ c, twoPlayerWorld.Connections.get "p1" = some c → c = 1) ∧
      (disconnect twoPlayerWorld "p1").1.Players.get "p1" = none ∧
      (disconnect twoPlayerWorld "p1").1.Connections.get "p1" = none ∧
      (disconnect twoPlayerWorld "p1").1.Players.get "p2" = some (spawn "p2" "purple") ∧
      (disconnect twoPlayerWorld "p1").1.Connections.get "p2" = some 2 ∧
      (disconnect twoPlayerWorld "p1").2.length = 1 ∧
      (∃ b, (disconnect twoPlayerWorld "p1").2 = [b] ∧ b.data.Players.get "p1" = none ∧
        b.data.Players.get "p2" = some (spawn "p2" "purple") ∧ b.recipients = [("p2", 2)]) :=
  have hown : ∀ c, twoPlayerWorld.Connections.get "p1" = some c → c = 1 := by
    intro c hc
    have h1 : twoPlayerWorld.Connections.get "p1" = some 1 := by decide
    rw [h1] at hc
    cases hc
    rfl
  have h := disconnect_removes_own twoPlayerWorld "p1" 1 hown
  ⟨hown, h.1, h.2.1,
    ((h.2.2.1 "p2" (by decide)).1).trans (by decide),
    h.2.2.2.1 "p2" 2 (by decide) (by decide), h.2.2.2.2.2.2.2.1,
    ⟨_, h.2.2.2.2.2.2.2.2.1, by decide, by decide, by decide⟩⟩

/-- C6 fails as stated: the lock is released between the registration (line 146)
and the broadcast of line 149.  With p1 connected on handle 1, a second
connection registers under p1 on handle 2; the cleanup of the first connection
(lines 152-155) then takes the lock before the broadcast of the second: that
broadcast holds no player under p1 and is written to no connection. -/
theorem broadcast_after_raced_register :
    (connect p1World "p1" 2 ⟨1, by decide⟩).Players.get "p1" = some (spawn "p1" "blue") ∧
      (connect p1World "p1" 2 ⟨1, by decide⟩).Connections.get "p1" = some 2 ∧
      (broadcastGameState racedWorld).2.data.Players.get "p1" = none ∧
      (broadcastGameState racedWorld).2.recipients = [] := by
  decide

/-- C6, as amended: connecting with a non-empty identifier id stores under id a
player with ID = id, position (50, 530), VelocityY = 0, IsJumping = false,
Score = 0 and a Color of the palette red, blue, green, purple, orange; registers
the connection handle under id; leaves the player and the registry entry under
every other key as they were.  The broadcast of line 149 holds that player under
id and is written to the new connection when nothing takes the lock in between;
when other steps run in between, none of them the cleanup for id, it still
holds a player with ID = id under id and is written to a connection under id.
Scenario: when the client then sends x = 120, y = 480, velocityY = 0,
isJumping = false, score = 5, the stored player and the broadcast that follows
have Score 5 and X 120, and once it disconnects no player is stored under id and
the one broadcast that follows holds none. -/
theorem connect_creates_player (g : Game) (id : String) (conn : Conn)
    (r : Fin colors.length) (uid ucolor : String) (h : id ≠ "") :
    (connect g id conn r).Players.get id =
        some { ID := id, X := 50, Y := 530, VelocityY := 0, IsJumping := false,
               Score := 0, Color := randomColor r } ∧
      randomColor r ∈ ["red", "blue", "green", "purple", "orange"] ∧
      (connect g id conn r).Connections.get id = some conn ∧
      (∀ k, k ≠ id →
        (connect g id conn r).Players.get k = g.Players.get k ∧
        (connect g id conn r).Connections.get k = g.Connections.get k) ∧
      ((broadcastGameState (connect g id conn r)).2.data.Players.get id =
          some { ID := id, X := 50, Y := 530, VelocityY := 0, IsJumping := false,
                 Score := 0, Color := randomColor r } ∧
        (id, conn) ∈ (broadcastGameState (connect g id conn r)).2.recipients) ∧
      (∀ mid : List Op, (∀ op ∈ mid, isRemoveOf id op = false) →
        (∃ p, (broadcastGameState (run (connect g id conn r) mid)).2.data.Players.get id =
            some p ∧ p.ID = id) ∧
        ∃ c, (id, c) ∈ (broadcastGameState (run (connect g id conn r) mid)).2.recipients) ∧
      (∃ b p, (ingest (broadcastGameState (connect g id conn r)).1 id
            (some { ID := uid, X := 120, Y := 480, VelocityY := 0, IsJumping := false,
                    Score := 5, Color := ucolor })).2 = [b] ∧
          (ingest (broadcastGameState (connect g id conn r)).1 id
            (some { ID := uid, X := 120, Y := 480, VelocityY := 0, IsJumping := false,
                    Score := 5, Color := ucolor })).1.Players.get id = some p ∧
          b.data.Players.get id = some p ∧ p.Score = 5 ∧ p.X = 120) ∧
      (∃ b, (disconnect (ingest (broadcastGameState (connect g id conn r)).1 id
            (some { ID := uid, X := 120, Y := 480, VelocityY := 0, IsJumping := false,
                    Score := 5, Color := ucolor })).1 id).2 = [b] ∧
          b.data.Players.get id = none ∧
          (disconnect (ingest (broadcastGameState (connect g id conn r)).1 id
            (some { ID := uid, X := 120, Y := 480, VelocityY := 0, IsJumping := false,
                    Score := 5, Color := ucolor })).1 id).1.Players.get id = none) := by
  have hget := registerPlayer_get_self g id conn r
  rw [connect_of_ne g id conn r h]
  have hb : (broadcastGameState (registerPlayer g id conn r)).1.Players.get id =
      some (spawn id (randomColor r)) := hget.1
  refine ⟨hget.1, randomColor_mem r, hget.2,
    fun k hk => registerPlayer_get_of_ne g id k conn r hk,
    ⟨hget.1, List.mem_cons_self _ _⟩, ?_, ?_, ⟨_, rfl, (removePlayer_gets _ id).1,
      (removePlayer_gets _ id).1⟩⟩
  · intro mid hmid
    have hhas : hasPlayer id (run (registerPlayer g id conn r) mid) :=
      run_hasPlayer id mid _ hmid ⟨⟨_, hget.1, rfl⟩, conn, hget.2⟩
    obtain ⟨⟨p, hp, hpid⟩, c, hc⟩ := hhas
    exact ⟨⟨p, hp, hpid⟩, GoMap.exists_mem_entries_of_get _ id c hc⟩
  · refine ⟨_, _, rfl, applyUpdate_get_self _ id _ _ hb, applyUpdate_get_self _ id _ _ hb,
      rfl, ?_⟩
    norm_num

theorem connect_creates_player_witness :
    "p1" ≠ "" ∧
      (connect game "p1" 1 ⟨2, by decide⟩).Players.get "p1" =
        some { ID := "p1", X := 50, Y := 530, VelocityY := 0, IsJumping := false,
               Score := 0, Color := "green" } ∧
      (∀ op ∈ otherSteps, isRemoveOf "p1" op = false) ∧
      (∃ p, (broadcastGameState (run (connect game "p1" 1 ⟨2, by decide⟩) otherSteps)).2.data.Players.get
          "p1" = some p ∧ p.ID = "p1") ∧
      (∃ b p, (ingest (broadcastGameState (connect game "p1" 1 ⟨2, by decide⟩)).1 "p1"
            (some { ID := "p1", X := 120, Y := 480, VelocityY := 0, IsJumping := false,
                    Score := 5, Color := "" })).2 = [b] ∧
          (ingest (broadcastGameState (connect game "p1" 1 ⟨2, by decide⟩)).1 "p1"
            (some { ID := "p1", X := 120, Y := 480, VelocityY := 0, IsJumping := false,
                    Score := 5, Color := "" })).1.Players.get "p1" = some p ∧
          b.data.Players.get "p1" = some p ∧ p.Score = 5 ∧ p.X = 120) ∧
      (∃ b, (disconnect (ingest (broadcastGameState (connect game "p1" 1 ⟨2, by decide⟩)).1 "p1"
            (some { ID := "p1", X := 120, Y := 480, VelocityY := 0, IsJumping := false,
                    Score := 5, Color := "" })).1 "p1").2 = [b] ∧
          b.data.Players.get "p1" = none ∧
          (disconnect (ingest (broadcastGameState (connect game "p1" 1 ⟨2, by decide⟩)).1 "p1"
            (some { ID := "p1", X := 120, Y := 480, VelocityY := 0, IsJumping := false,
                    Score := 5, Color := "" })).1 "p1").1.Players.get "p1" = none) :=
  have h := connect_creates_player game "p1" 1 ⟨2, by decide⟩ "p1" "" (by decide)
  ⟨by decide, h.1, by decide, (h.2.2.2.2.2.1 otherSteps (by decide)).1, h.2.2.2.2.2.2.1,
    h.2.2.2.2.2.2.2⟩

/-- C7: after init the Coins map has exactly 10 entries, keyed coin0 .. coin9;
for every index i in 0..9 the coin stored under the i-th key has that key as ID,
X = 50 + 70 * i and Active = true, and for draws of rand.Float64() in [0, 1) its
Y, computed as 300 + r * 100 - 50, lies within [250, 350].  The float64
arithmetic may round each result, as long as the rounding is monotone and exact
on the integers up to 400. -/
theorem init_coins (fl : ℚ → ℚ) (draw : Nat → ℚ) (hmono : Monotone fl)
    (hexact : ∀ n : Nat, n ≤ 400 → fl (n : ℚ) = (n : ℚ))
    (hdraw : ∀ i, 0 ≤ draw i ∧ draw i < 1) :
    (initialWorld fl draw).Coins.len = 10 ∧
      (List.range 10).map coinKey =
        ["coin0", "coin1", "coin2", "coin3", "coin4", "coin5", "coin6", "coin7", "coin8",
          "coin9"] ∧
      (∀ k, k ∈ (initialWorld fl draw).Coins.keys ↔ ∃ i, i < 10 ∧ k = coinKey i) ∧
      ∀ i, i < 10 →
        ∃ c, (initialWorld fl draw).Coins.get (coinKey i) = some c ∧
          c.ID = coinKey i ∧ c.X = 50 + 70 * (i : ℚ) ∧ c.Active = true ∧
          c.Y = fl (fl (300 + fl (draw i * 100)) - 50) ∧ 250 ≤ c.Y ∧ c.Y ≤ 350 := by
  refine ⟨rfl, coinKeys_eq, initialWorld_coin_keys fl draw, ?_⟩
  intro i hi
  have hY : (coinAt fl draw i).Y = fl (fl (300 + fl (draw i * 100)) - 50) := by
    simp [coinAt, screenHeight]
  refine ⟨coinAt fl draw i, initialWorld_get_coin fl draw i hi, rfl, ?_, rfl, hY, ?_⟩
  · simp only [coinAt]
    push_cast
    ring
  · rw [hY]
    exact coinY_bounds fl hmono hexact (draw i) (hdraw i).1 (hdraw i).2

theorem init_coins_witness :
    Monotone (id : ℚ → ℚ) ∧ (∀ n : Nat, n ≤ 400 → id (n : ℚ) = (n : ℚ)) ∧
      (∀ i : Nat, (0 : ℚ) ≤ (fun j : Nat => (j : ℚ) / (j + 1)) i ∧
        (fun j : Nat => (j : ℚ) / (j + 1)) i < 1) ∧
      (initialWorld id (fun j => (j : ℚ) / (j + 1))).Coins.len = 10 ∧
      ∃ c, (initialWorld id (fun j => (j : ℚ) / (j + 1))).Coins.get (coinKey 3) = some c ∧
        c.X = 260 ∧ c.Y = 325 :=
  have hd : ∀ i : Nat, (0 : ℚ) ≤ (fun j : Nat => (j : ℚ) / (j + 1)) i ∧
      (fun j : Nat => (j : ℚ) / (j + 1)) i < 1 := by
    intro i
    have hpos : (0 : ℚ) < (i : ℚ) + 1 := by positivity
    constructor
    · positivity
    · show (i : ℚ) / (i + 1) < 1
      rw [div_lt_one hpos]
      linarith
  have h := init_coins id (fun j => (j : ℚ) / (j + 1)) monotone_id (fun _ _ => rfl) hd
  ⟨monotone_id, fun _ _ => rfl, hd, h.1, by
    obtain ⟨c, hc, _, hX, _, hY, _⟩ := h.2.2.2 3 (by decide)
    refine ⟨c, hc, ?_, ?_⟩
    · rw [hX]; norm_num
    · rw [hY]; norm_num⟩

/-- C8: an update read on the connection whose handshake identifier is c
changes only the player stored under c, whatever ID the message body carries:
players under other keys are as before, the player under c keeps ID and Color,
Coins, Platforms and Connections are untouched by the update step (and Coins
and Connections also by the broadcast that follows), and when no player is
stored under c the update step leaves the whole world as it was. -/
theorem update_touches_only_own_player (g : Game) (c : String) (playerUpdate : Player) :
    (∀ k, k ≠ c →
        (applyUpdate g c playerUpdate).Players.get k = g.Players.get k ∧
        (ingest g c (some playerUpdate)).1.Players.get k = g.Players.get k) ∧
      (∀ player, g.Players.get c = some player →
        ∃ p, (applyUpdate g c playerUpdate).Players.get c = some p ∧
          (ingest g c (some playerUpdate)).1.Players.get c = some p ∧
          p.ID = player.ID ∧ p.Color = player.Color) ∧
      (applyUpdate g c playerUpdate).Coins = g.Coins ∧
      (applyUpdate g c playerUpdate).Platforms = g.Platforms ∧
      (applyUpdate g c playerUpdate).Connections = g.Connections ∧
      (ingest g c (some playerUpdate)).1.Coins = g.Coins ∧
      (ingest g c (some playerUpdate)).1.Connections = g.Connections ∧
      (g.Players.get c = none → applyUpdate g c playerUpdate = g) := by
  obtain ⟨h1, h2, h3⟩ := applyUpdate_rest g c playerUpdate
  refine ⟨?_, ?_, h1, h2, h3, ?_, ?_, applyUpdate_of_absent g c playerUpdate⟩
  · intro k hk
    exact ⟨applyUpdate_get_of_ne g c k playerUpdate hk,
      by rw [ingest_players]; exact applyUpdate_get_of_ne g c k playerUpdate hk⟩
  · intro player hp
    refine ⟨_, applyUpdate_get_self g c player playerUpdate hp, ?_, rfl, rfl⟩
    rw [ingest_players]
    exact applyUpdate_get_self g c player playerUpdate hp
  · exact h1
  · exact h3

/-- C9 fails as stated: after p1 connects and sends an update with score -5 the
stored player has Score -5. -/
theorem negative_score_is_stored :
    ∃ p, (run (initialWorld id (fun _ => 0)) negativeScoreRun).Players.get "p1" = some p ∧
      p.Score = -5 ∧ ¬ (0 ≤ p.Score) :=
  ⟨{ ID := "p1", X := 120, Y := 480, VelocityY := 0, IsJumping := false, Score := -5,
     Color := "red" }, by decide, by decide, by decide⟩

/-- C9, as amended: the score of a stored player is 0 when its handshake
registers it and afterwards exactly the score of the last update applied to it,
whatever the position of that update, with no validation: after every run from
the initial world the score stored under a key is the one expectedScore follows
along the run.  Hence in every world reached by a run in which every decoded
message carries a score that is not negative, every stored player has Score at
least 0. -/
theorem score_nonneg_of_nonneg_updates (fl : ℚ → ℚ) (draw : Nat → ℚ) (ops : List Op)
    (k : String) :
    ((run (initialWorld fl draw) ops).Players.get k).map Player.Score = expectedScore ops k ∧
      ((∀ op ∈ ops, scoreNonneg op = true) →
        ∀ p, (run (initialWorld fl draw) ops).Players.get k = some p → 0 ≤ p.Score) ∧
      (∀ (g : Game) (id : String) (conn : Conn) (r : Fin colors.length), id ≠ "" →
        ∃ p, (connect g id conn r).Players.get id = some p ∧ p.Score = 0) ∧
      (∀ (g : Game) (id : String) (player playerUpdate : Player),
        g.Players.get id = some player →
        ∃ p, (applyUpdate g id playerUpdate).Players.get id = some p ∧
          (ingest g id (some playerUpdate)).1.Players.get id = some p ∧
          p.Score = playerUpdate.Score) := by
  have hscore : ((run (initialWorld fl draw) ops).Players.get k).map Player.Score =
      expectedScore ops k := by
    rw [run_score, (initialWorld_players fl draw).1]
    rfl
  refine ⟨hscore, ?_, ?_, ?_⟩
  · intro hops p hp
    refine foldl_scoreStep_nonneg k ops none hops (fun n hn => by cases hn) p.Score ?_
    have h2 := hscore
    rw [hp] at h2
    exact h2.symm
  · intro g id conn r hid
    rw [connect_of_ne g id conn r hid]
    exact ⟨_, (registerPlayer_get_self g id conn r).1, rfl⟩
  · intro g id player playerUpdate hp
    exact ⟨_, applyUpdate_get_self g id player playerUpdate hp,
      applyUpdate_get_self g id player playerUpdate hp, rfl⟩

theorem score_nonneg_of_nonneg_updates_witness :
    (∀ op ∈ scenarioRun, scoreNonneg op = true) ∧
      (run (initialWorld id (fun _ => 0)) scenarioRun).Players.get "p1" =
        some { ID := "p1", X := 120, Y := 480, VelocityY := -3, IsJumping := true,
               Score := 9, Color := "red" } ∧
      expectedScore scenarioRun "p1" = some 9 ∧
      expectedScore scenarioRun "p2" = none ∧
      (0 : Int) ≤ 9 :=
  have h := score_nonneg_of_nonneg_updates id (fun _ => 0) scenarioRun "p1"
  ⟨by decide, by decide, by decide, by decide,
    h.2.1 (by decide)
      { ID := "p1", X := 120, Y := 480, VelocityY := -3, IsJumping := true,
        Score := 9, Color := "red" } (by decide)⟩

/-- C10: in every world the server reaches (after every run from the initial
world) the snapshot that handleGameState returns is the snapshot that
broadcastGameState emits from that world, field by field; its platform list is
the list after the all-zero self-heal, which changes no entry of such a world;
handleGameState leaves the world as it is. -/
theorem handleGameState_eq_broadcast (fl : ℚ → ℚ) (draw : Nat → ℚ) (ops : List Op) :
    (handleGameState (run (initialWorld fl draw) ops)).2 =
        (broadcastGameState (run (initialWorld fl draw) ops)).2.data ∧
      (handleGameState (run (initialWorld fl draw) ops)).2.Players =
        (broadcastGameState (run (initialWorld fl draw) ops)).2.data.Players ∧
      (handleGameState (run (initialWorld fl draw) ops)).2.Coins =
        (broadcastGameState (run (initialWorld fl draw) ops)).2.data.Coins ∧
      (handleGameState (run (initialWorld fl draw) ops)).2.Platforms =
        healPlatforms (run (initialWorld fl draw) ops).Platforms ∧
      (handleGameState (run (initialWorld fl draw) ops)).1 = run (initialWorld fl draw) ops := by
  have hno : noZeroPlatform (run (initialWorld fl draw) ops) :=
    run_noZeroPlatform ops _ (initialWorld_noZeroPlatform fl draw)
  have heq := handleGameState_eq_broadcast_of_none_zero _ hno
  refine ⟨heq, rfl, rfl, ?_, rfl⟩
  rw [healPlatforms_eq_map]
  exact (map_healOne_of_none_zero _ hno).symm

end GoGame
